import Mathlib

/-!
Shallow embedding of the calendar synchronization subsystem of the
rentopia-api repository (`CalendarSyncService`): iCal download, parsing,
heuristic guest-info extraction, and reconciliation of calendar events
against persisted bookings.  JavaScript strings are modelled as Lean
`String`s, JS `Date` instants as `Int` epoch milliseconds, and the
database as an explicit in-memory state.  The regular-expression
heuristics of `extractGuestInfo` are modelled with the exact
leftmost-match, greedy-with-backtracking semantics of the JS regexes
they embed.
-/

/-! ### JS string primitives -/

/-- JS `String.prototype.toLowerCase` (ASCII range, which is all the
source's keyword comparisons use). -/
def toLowerStr (s : String) : String := String.mk (s.data.map Char.toLower)

/-- JS `\s` character class (ASCII whitespace, the relevant subset). -/
def jsWs (c : Char) : Bool := c.isWhitespace

/-- JS `String.prototype.trim` on a character list. -/
def trimL (cs : List Char) : List Char :=
  ((cs.dropWhile jsWs).reverse.dropWhile jsWs).reverse

/-- JS `String.prototype.trim`. -/
def trimStr (s : String) : String := String.mk (trimL s.data)

/-- Does the second list occur at the head of the first? -/
def startsWithL : List Char → List Char → Bool
  | _, [] => true
  | [], _ :: _ => false
  | a :: as, b :: bs => a == b && startsWithL as bs

/-- Does `pat` occur as a contiguous sublist? (JS `String.prototype.includes`.) -/
def containsSubL (pat : List Char) : List Char → Bool
  | [] => startsWithL [] pat
  | c :: rest => startsWithL (c :: rest) pat || containsSubL pat rest

/-- JS `s.includes(pat)`. -/
def containsSub (s pat : String) : Bool := containsSubL pat.data s.data

/-- JS `s.startsWith(pat)`. -/
def strStartsWith (s pat : String) : Bool := startsWithL s.data pat.data

/-- Case-insensitive `startsWithL` (for `/i` regex flags). -/
def startsWithCIL (cs pat : List Char) : Bool :=
  startsWithL (cs.map Char.toLower) (pat.map Char.toLower)

/-- Strip a case-insensitive literal from the head of a char list,
returning the remainder on success. -/
def stripCI (cs : List Char) (pat : String) : Option (List Char) :=
  if startsWithCIL cs pat.data then some (cs.drop pat.data.length) else none

/-- Numeric value of a decimal digit run (JS `parseInt(run, 10)`). -/
def digitsVal (ds : List Char) : Nat :=
  ds.foldl (fun acc c => acc * 10 + (c.toNat - '0'.toNat)) 0

/-! ### The calendar-event record produced by the parser -/

/-- `CalendarEvent` from calendarSyncService.ts.  `start`/`end` are epoch
milliseconds (`Date.getTime()`); `end` is spelled `end_` because `end` is
a Lean keyword.  `description`, `location`, `organizer` are always
populated by the parser (with `""` when absent), matching the JS code
where the empty string is falsy. -/
structure CalendarEvent where
  uid : String
  summary : String
  description : String
  start : Int
  end_ : Int
  location : String
  organizer : String
deriving Repr, DecidableEq

/-! ### extractGuestInfo: the regex heuristics -/

/-- Character class `[A-Za-z\s]` of the guest-name regex. -/
def isNameChar (c : Char) : Bool := c.isAlpha || jsWs c

/-- Tail of the name regex: `(?:\s*-|\s*\(|$)` at the given suffix. -/
def nameTailOk (cs : List Char) : Bool :=
  match cs with
  | [] => true
  | _ :: _ =>
    let r := cs.dropWhile jsWs
    r.head? == some '-' || r.head? == some '('

/-- Greedy backtracking over the group size of `([A-Za-z\s]{2,50})`:
try `k` characters, then `k-1`, ..., down to `2`. -/
def nameGroupSearch (run rest : List Char) : Nat → Option String
  | 0 => none
  | k + 1 =>
    if k + 1 < 2 then none
    else if nameTailOk (run.drop (k + 1) ++ rest) then some (String.mk (run.take (k + 1)))
    else nameGroupSearch run rest k

/-- Capture group of `cleanSummary.match(/^([A-Za-z\s]{2,50})(?:\s*-|\s*\(|$)/)`. -/
def nameMatchCapture (s : String) : Option String :=
  let cs := s.data
  let run := cs.takeWhile isNameChar
  nameGroupSearch run (cs.drop run.length) (min run.length 50)

/-- Attempt `/(\d+)\s*guests?/i` anchored at the current position:
a digit run, optional whitespace, then `guest` case-insensitively. -/
def guestAt (cs : List Char) : Option Nat :=
  let ds := cs.takeWhile Char.isDigit
  if ds.isEmpty then none
  else
    let rest := (cs.dropWhile Char.isDigit).dropWhile jsWs
    if startsWithCIL rest "guest".data then some (digitsVal ds) else none

/-- Leftmost match of `/(\d+)\s*guests?/i`, returning the numeric value of
the captured digit run. -/
def guestScan : List Char → Option Nat
  | [] => none
  | c :: rest =>
    match guestAt (c :: rest) with
    | some n => some n
    | none => guestScan rest

/-- Local-part class `[a-zA-Z0-9._%+-]` of the email regex. -/
def isLocalChar (c : Char) : Bool :=
  c.isAlphanum || c == '.' || c == '_' || c == '%' || c == '+' || c == '-'

/-- Domain class `[a-zA-Z0-9.-]` of the email regex. -/
def isDomainChar (c : Char) : Bool := c.isAlphanum || c == '.' || c == '-'

/-- Backtracking over how much `[a-zA-Z0-9.-]+` consumes before the
literal dot: the dot position `j` runs from the end of the run downward;
after it, `[a-zA-Z]{2,}` takes the maximal alpha run. -/
def emailDomainSearch (dom : List Char) : Nat → Option (List Char)
  | 0 => none
  | j + 1 =>
    if dom.get? (j + 1) == some '.' then
      let letters := (dom.drop (j + 2)).takeWhile Char.isAlpha
      if 2 ≤ letters.length then some (dom.take (j + 1) ++ '.' :: letters)
      else emailDomainSearch dom j
    else emailDomainSearch dom j

/-- Attempt `/([a-zA-Z0-9._%+-]+@[a-zA-Z0-9.-]+\.[a-zA-Z]{2,})/`
anchored at the current position. -/
def emailAt (cs : List Char) : Option (List Char) :=
  let loc := cs.takeWhile isLocalChar
  if loc.isEmpty then none
  else
    match cs.drop loc.length with
    | '@' :: rest =>
      let dom := rest.takeWhile isDomainChar
      match emailDomainSearch dom (dom.length - 1) with
      | some d => some (loc ++ '@' :: d)
      | none => none
    | _ => none

/-- Leftmost match of the email regex over the whole string. -/
def emailScan : List Char → Option (List Char)
  | [] => none
  | c :: rest =>
    match emailAt (c :: rest) with
    | some m => some m
    | none => emailScan rest

/-- Capture class `[+\d\s\-\(\)]` of the phone regex. -/
def isPhoneChar (c : Char) : Bool :=
  c == '+' || c.isDigit || jsWs c || c == '-' || c == '(' || c == ')'

/-- Greedy backtracking over `\s*` (taking `k` whitespace characters,
largest first) followed by the mandatory `([+\d\s\-\(\)]+)` capture. -/
def phoneWsSearch (rest : List Char) : Nat → Option (List Char)
  | 0 =>
    let cap := rest.takeWhile isPhoneChar
    if cap.isEmpty then none else some cap
  | k + 1 =>
    let cap := (rest.drop (k + 1)).takeWhile isPhoneChar
    if cap.isEmpty then phoneWsSearch rest k else some cap

/-- Attempt `/(?:phone|tel|mobile):\s*([+\d\s\-\(\)]+)/i` anchored at the
current position. -/
def phoneAt (cs : List Char) : Option (List Char) :=
  let afterLabel :=
    match stripCI cs "phone:" with
    | some r => some r
    | none =>
      match stripCI cs "tel:" with
      | some r => some r
      | none => stripCI cs "mobile:"
  match afterLabel with
  | none => none
  | some rest => phoneWsSearch rest (rest.takeWhile jsWs).length

/-- Leftmost match of the phone regex, returning the raw capture. -/
def phoneScan : List Char → Option (List Char)
  | [] => none
  | c :: rest =>
    match phoneAt (c :: rest) with
    | some m => some m
    | none => phoneScan rest

/-! ### extractGuestInfo itself -/

/-- Result record of `extractGuestInfo`. -/
structure GuestInfo where
  name : String
  email : Option String
  phone : Option String
  guests : Nat
  isPlaceholder : Bool
deriving Repr, DecidableEq

/-- The blocked/closed-date guard of `extractGuestInfo`:
`event.summary && (lower.includes("closed") || lower.includes("blocked") ||
lower.includes("unavailable") || lower === "closed" ||
lower.includes("not available"))`. -/
def closureGuard (summary : String) : Bool :=
  let lower := toLowerStr summary
  (summary != "") &&
    (containsSub lower "closed" || containsSub lower "blocked" ||
      containsSub lower "unavailable" || (lower == "closed") ||
      containsSub lower "not available")

/-- Name extraction of the `else if (event.summary)` branch: the
`nameMatch` attempt and its keyword re-check, with the
"`<summary> - Please Update`" fallback.  Returns (name, isPlaceholder). -/
def nameFromSummary (summary : String) : String × Bool :=
  let cleanSummary := trimStr summary
  match nameMatchCapture cleanSummary with
  | some cand =>
    if !(containsSub (toLowerStr cand) "closed") &&
        !(containsSub (toLowerStr cand) "blocked") &&
        !(containsSub (toLowerStr cand) "unavailable") then
      (trimStr cand, false)
    else
      (cleanSummary ++ " - Please Update", true)
  | none => (cleanSummary ++ " - Please Update", true)

/-- Guest-count extraction of the `else if (event.summary)` branch:
`Math.max(1, parseInt(guestMatch[1], 10))` when the pattern is present,
otherwise the default of 1. -/
def guestsFromSummary (summary : String) : Nat :=
  match guestScan summary.data with
  | some n => max 1 n
  | none => 1

/-- Email extraction over `event.description` (skipped when the
description is empty, which is falsy in JS). -/
def emailFromDescription (d : String) : Option String :=
  if d != "" then (emailScan d.data).map String.mk else none

/-- Phone extraction over `event.description`; the captured run is
trimmed and an empty trim result is dropped by `phone || undefined`. -/
def phoneFromDescription (d : String) : Option String :=
  if d != "" then
    match phoneScan d.data with
    | some cap =>
      let p := trimStr (String.mk cap)
      if p == "" then none else some p
    | none => none
  else none

/-- `CalendarSyncService.extractGuestInfo`. -/
def extractGuestInfo (event : CalendarEvent) : GuestInfo :=
  let email := emailFromDescription event.description
  let phone := phoneFromDescription event.description
  if closureGuard event.summary then
    { name := "Blocked Period - Please Update", email, phone,
      guests := 1, isPlaceholder := true }
  else if event.summary != "" then
    let np := nameFromSummary event.summary
    { name := np.1, email, phone,
      guests := guestsFromSummary event.summary, isPlaceholder := np.2 }
  else
    { name := "Calendar Reservation", email, phone,
      guests := 1, isPlaceholder := true }

/-! ### Persistent data model -/

/-- A row of the `bookings` table, with the columns the sync code reads
or writes.  Money columns are modelled as integers (the sync only ever
writes zero); enum columns as strings; epoch-millisecond instants as
`Int`.  `updatedAt` models the `updated_at` column, which the update
statement sets to `NOW()`. -/
structure Booking where
  id : Nat
  propertyId : String
  guestName : String
  guestEmail : Option String
  guestPhone : Option String
  numberOfGuests : Nat
  checkInDate : Int
  checkOutDate : Int
  nightsCount : Int
  baseAmount : Int
  cleaningFee : Int
  taxes : Int
  totalAmount : Int
  securityDeposit : Int
  bookingStatus : String
  paymentStatus : String
  bookingSource : String
  externalId : Option String
  specialRequests : Option String
  internalNotes : Option String
  updatedAt : Int
deriving Repr, DecidableEq

/-- `SyncResult` from calendarSyncService.ts. -/
structure SyncResult where
  success : Bool
  message : String
  bookingsCreated : Nat
  bookingsUpdated : Nat
  bookingsSkipped : Nat
  errors : List String
deriving Repr, DecidableEq

/-- The freshly initialised result record each sync entry point builds. -/
def emptyResult : SyncResult :=
  { success := false, message := "", bookingsCreated := 0,
    bookingsUpdated := 0, bookingsSkipped := 0, errors := [] }

/-- The bookings store: the table rows plus the id the next insert gets. -/
structure DB where
  bookings : List Booking
  nextId : Nat
deriving Repr, DecidableEq

/-- `Date.prototype.toISOString` of the external JS runtime, modelled as
an injective rendering of the epoch-millisecond instant. -/
def isoOfTime (t : Int) : String := toString t

/-- `SELECT id FROM bookings WHERE property_id = ? AND external_id = ?`
followed by `existingBookings.length > 0 ? existingBookings[0] : null`. -/
def lookupBooking (db : DB) (propertyId uid : String) : Option Booking :=
  (db.bookings.filter fun b =>
    b.propertyId == propertyId && b.externalId == some uid).head?

/-- Exact integer ceiling division `⌈a / b⌉` for positive `b`, modelling
`Math.ceil((checkOut - checkIn) / (1000*60*60*24))` (exact at every
representable date difference). -/
def ceilDiv (a b : Int) : Int := -((-a).fdiv b)

/-- `nights` as computed by `processCalendarEvent`. -/
def computeNights (e : CalendarEvent) : Int :=
  ceilDiv (e.end_ - e.start) (1000 * 60 * 60 * 24)

/-- The `UPDATE bookings SET ... WHERE id = ...` statement of
`processCalendarEvent`, applied to one row. -/
def updateFromEvent (gi : GuestInfo) (e : CalendarEvent) (now : Int)
    (nights : Int) (b : Booking) : Booking :=
  { b with
    guestName := gi.name
    guestEmail := gi.email
    guestPhone := gi.phone
    numberOfGuests := gi.guests
    checkInDate := e.start
    checkOutDate := e.end_
    nightsCount := nights
    specialRequests := if e.description == "" then none else some e.description
    internalNotes := some ("Updated from calendar sync on " ++ isoOfTime now)
    updatedAt := now }

/-- The `prisma.booking.create` call of `processCalendarEvent`. -/
def newBookingFromEvent (propertyId : String) (gi : GuestInfo)
    (e : CalendarEvent) (now nights : Int) (id : Nat) : Booking :=
  { id := id
    propertyId := propertyId
    guestName := gi.name
    guestEmail := gi.email
    guestPhone := gi.phone
    numberOfGuests := gi.guests
    checkInDate := e.start
    checkOutDate := e.end_
    nightsCount := nights
    baseAmount := 0
    cleaningFee := 0
    taxes := 0
    totalAmount := 0
    securityDeposit := 0
    bookingStatus := "pending"
    paymentStatus := "pending"
    bookingSource := "booking.com"
    externalId := some e.uid
    specialRequests := if e.description == "" then none else some e.description
    internalNotes := some (if gi.isPlaceholder then
        "[PLACEHOLDER] Calendar blocked date - imported from calendar sync on "
          ++ isoOfTime now
      else "Imported from calendar sync on " ++ isoOfTime now)
    updatedAt := now }

/-- `CalendarSyncService.processCalendarEvent`. -/
def processCalendarEvent (propertyId : String) (event : CalendarEvent)
    (now : Int) (db : DB) (result : SyncResult) : DB × SyncResult :=
  let existingBooking := lookupBooking db propertyId event.uid
  let nights := computeNights event
  if nights ≤ 0 then
    (db, { result with
      errors := result.errors ++ ["Invalid date range for event " ++ event.uid] })
  else
    let guestInfo := extractGuestInfo event
    match existingBooking with
    | some eb =>
      ({ db with bookings := db.bookings.map (fun b =>
          if b.id == eb.id then updateFromEvent guestInfo event now nights b else b) },
        { result with bookingsUpdated := result.bookingsUpdated + 1 })
    | none =>
      ({ bookings :=
           db.bookings ++ [newBookingFromEvent propertyId guestInfo event now nights db.nextId],
         nextId := db.nextId + 1 },
        { result with bookingsCreated := result.bookingsCreated + 1 })

/-- The per-event loop of `syncPropertyCalendarWithUrl` (write failures,
the only per-event exceptions, do not occur in the store model). -/
def syncEvents (propertyId : String) (now : Int) :
    List CalendarEvent → DB → SyncResult → DB × SyncResult
  | [], db, result => (db, result)
  | e :: rest, db, result =>
    let s := processCalendarEvent propertyId e now db result
    syncEvents propertyId now rest s.1 s.2

/-! ### The iCal parser -/

/-- The organizer field of a parsed VEVENT: either a plain string, a
structured value with an optional `params.CN`, or absent. -/
inductive OrganizerVal where
  | str (s : String)
  | structured (cn : Option String)
  | absent
deriving Repr, DecidableEq

/-- One entry of the object returned by the external `ical.parseICS`
tokenizer: a typed component whose fields may be missing. -/
structure ICalEntry where
  type : String
  uid : Option String
  start : Option Int
  end_ : Option Int
  summary : Option String
  description : Option String
  location : Option String
  organizer : OrganizerVal
deriving Repr, DecidableEq

/-- JS truthiness of an optional string (absent and `""` are falsy). -/
def jsTruthy (o : Option String) : Bool :=
  match o with
  | none => false
  | some s => s != ""

/-- `o || d` on an optional string, with JS falsiness of `""`. -/
def jsOrElse (o : Option String) (d : String) : String :=
  match o with
  | none => d
  | some s => if s == "" then d else s

/-- The organizer flattening of `parseICalData`:
`typeof organizer === "string" ? organizer : organizer?.params?.CN || ""`. -/
def flattenOrganizer (o : OrganizerVal) : String :=
  match o with
  | .str s => s
  | .structured cn => jsOrElse cn ""
  | .absent => ""

/-- The body of the `parseICalData` loop for one tokenized entry:
`none` when the entry is not a VEVENT or lacks a truthy uid, a start, or
an end (JS `!vevent.uid || !vevent.start || !vevent.end`; `start`/`end`
are `Date` objects, which are always truthy when present). -/
def parseEntry (e : ICalEntry) : Option CalendarEvent :=
  if e.type == "VEVENT" then
    if jsTruthy e.uid then
      match e.start, e.end_ with
      | some s, some en =>
        some { uid := e.uid.getD ""
               summary := jsOrElse e.summary "Booking"
               description := jsOrElse e.description ""
               start := s
               end_ := en
               location := jsOrElse e.location ""
               organizer := flattenOrganizer e.organizer }
      | _, _ => none
    else none
  else none

/-- `CalendarSyncService.parseICalData`, starting from the entry map the
external `ical.parseICS` tokenizer produced (enumerated in object order). -/
def parseICalData (entries : List ICalEntry) : List CalendarEvent :=
  entries.filterMap parseEntry

/-! ### The iCal fetcher -/

/-- Outcome of the `axios.get` call plus the tokenization of the body by
the external `ical.parseICS`: either the request threw (network error,
timeout, or a non-2xx status rejected by axios — carrying the JS error
message), or a response arrived with a status code and a body whose
tokenization either failed with a message or produced an entry map.
A syntactically arbitrary non-calendar body tokenizes to `.ok []`
(node-ical ignores unrecognized lines rather than failing). -/
inductive FetchOutcome where
  | netError (msg : String)
  | response (status : Nat) (tok : Except String (List ICalEntry))
deriving Repr

/-- `CalendarSyncService.downloadICalData`: every failure is rethrown as
a plain `Error` whose message is the underlying message behind the fixed
`"Failed to download iCal data: "` text. -/
def downloadICalData (o : FetchOutcome) : Except String (List CalendarEvent) :=
  match o with
  | .netError msg => .error ("Failed to download iCal data: " ++ msg)
  | .response status tok =>
    if status != 200 then
      .error ("Failed to download iCal data: Failed to download calendar: HTTP "
        ++ toString status)
    else
      match tok with
      | .error msg =>
        .error ("Failed to download iCal data: Failed to parse iCal data: " ++ msg)
      | .ok entries => .ok (parseICalData entries)

/-! ### The sync orchestrator -/

/-- A row of the `properties` table, with the columns the sync reads. -/
structure PropertyRow where
  id : String
  name : String
  ical_url : Option String
  sync_enabled : Bool
  user_id : String
  last_sync_at : Option Int
deriving Repr, DecidableEq

/-- The persistent state the orchestrator touches. -/
structure SyncState where
  props : List PropertyRow
  db : DB
deriving Repr, DecidableEq

/-- `UPDATE properties SET last_sync_at = NOW() WHERE id = ?`. -/
def setLastSync (props : List PropertyRow) (propertyId : String)
    (now : Int) : List PropertyRow :=
  props.map fun p =>
    if p.id == propertyId then { p with last_sync_at := some now } else p

/-- `CalendarSyncService.syncPropertyCalendarWithUrl`.  The network and
tokenizer are supplied as a `FetchOutcome`; the third component counts
how many times the HTTP fetch was performed. -/
def syncPropertyCalendarWithUrl (st : SyncState) (fetch : FetchOutcome)
    (now : Int) (propertyId : String) (_icalUrl : String) :
    SyncState × SyncResult × Nat :=
  match (st.props.filter fun p => p.id == propertyId).head? with
  | none => (st, { emptyResult with errors := ["Property not found"] }, 0)
  | some _ =>
    match downloadICalData fetch with
    | .error msg =>
      (st, { emptyResult with errors := ["Sync failed: " ++ msg] }, 1)
    | .ok events =>
      let s := syncEvents propertyId now events st.db emptyResult
      let success := s.2.errors.isEmpty
      let message :=
        if success then
          "Sync completed successfully. Created: " ++ toString s.2.bookingsCreated
            ++ ", Updated: " ++ toString s.2.bookingsUpdated
            ++ ", Skipped: " ++ toString s.2.bookingsSkipped
        else
          "Sync completed with " ++ toString s.2.errors.length ++ " errors"
      ({ props := setLastSync st.props propertyId now, db := s.1 },
        { s.2 with success := success, message := message }, 1)

/-- `CalendarSyncService.syncPropertyCalendar` (stored-settings entry
point): resolves `ical_url`/`sync_enabled` and gates before any fetch. -/
def syncPropertyCalendar (st : SyncState) (fetch : FetchOutcome)
    (now : Int) (propertyId : String) : SyncState × SyncResult × Nat :=
  match (st.props.filter fun p => p.id == propertyId).head? with
  | none => (st, { emptyResult with errors := ["Property not found"] }, 0)
  | some property =>
    if !property.sync_enabled || !(jsTruthy property.ical_url) then
      (st, { emptyResult with
        errors := ["Calendar sync is not enabled for this property"] }, 0)
    else
      syncPropertyCalendarWithUrl st fetch now propertyId
        (property.ical_url.getD "")

/-! ### Derived predicates and concrete sample data used in statements -/

/-- The closure-keyword test of the spec: the summary contains, case-
insensitively, one of "closed", "blocked", "unavailable", "not available"
(exactly or as a substring). -/
def closureKeywordHit (s : String) : Bool :=
  let lower := toLowerStr s
  containsSub lower "closed" || containsSub lower "blocked" ||
    containsSub lower "unavailable" || containsSub lower "not available"

/-- An event whose date range yields a positive night count. -/
def validEvent (e : CalendarEvent) : Bool := decide (0 < computeNights e)

/-- Some booking with the given (propertyId, externalId) pair exists. -/
def keyExists (db : DB) (propertyId u : String) : Prop :=
  ∃ b ∈ db.bookings, b.propertyId = propertyId ∧ b.externalId = some u

/-- At most one booking exists for every (propertyId, externalId) pair. -/
def dedupInv (db : DB) : Prop :=
  ∀ propertyId u : String,
    (db.bookings.filter fun b =>
      b.propertyId == propertyId && b.externalId == some u).length ≤ 1

def c2Event : CalendarEvent := ⟨"u2", "CLOSED", "", 0, 86400000, "", ""⟩

def johnDoeEvent : CalendarEvent := ⟨"uJ", "John Doe - 2 guests", "", 0, 86400000, "", ""⟩

def c3Event : CalendarEvent := ⟨"u3", "Blocked - 3 guests", "", 0, 86400000, "", ""⟩

def zeroGuestsEvent : CalendarEvent := ⟨"u0", "John Doe - 0 guests", "", 0, 86400000, "", ""⟩

def c4Event : CalendarEvent := ⟨"u4", "Jane", "", 86400000, 86400000, "", ""⟩

def c5Event : CalendarEvent := ⟨"u5", "John Doe", "", 0, 86400000, "", ""⟩

def c5Booking : Booking :=
  ⟨1, "p5", "Old Name", none, none, 2, 0, 86400000, 1, 10, 2, 3, 15, 5,
    "confirmed", "paid", "airbnb", some "u5", some "old requests", some "old notes", 0⟩

def c5DB : DB := ⟨[c5Booking], 2⟩

def c6Event : CalendarEvent := ⟨"u6", "CLOSED", "", 0, 86400000, "", ""⟩

def c7BadEntry : ICalEntry := ⟨"VEVENT", none, some 0, some 86400000, some "X", none, none, .absent⟩

def c7GoodEntry : ICalEntry := ⟨"VEVENT", some "g1", some 0, some 86400000, some "A B", none, none, .absent⟩

def c10Entry : ICalEntry := ⟨"VEVENT", some "n1", some 0, some 86400000, none, none, none, .absent⟩

def c8Prop : PropertyRow := ⟨"p8", "Prop8", some "http://cal", false, "u", none⟩

def c8State : SyncState := ⟨[c8Prop], ⟨[], 1⟩⟩

def c1Entry : ICalEntry := ⟨"VEVENT", some "abc123", some 0, some 259200000, some "Jane Roe", none, none, .absent⟩

def c1Prop : PropertyRow := ⟨"p1", "Prop1", some "http://cal", true, "u", none⟩

def c1State : SyncState := ⟨[c1Prop], ⟨[], 1⟩⟩

/-! ### Helper lemmas -/

theorem startsWithL_nil : ∀ cs : List Char, startsWithL cs [] = true
  | [] => rfl
  | _ :: _ => rfl

theorem startsWithL_append_left (p : List Char) :
    ∀ l t : List Char, p.length ≤ l.length →
      startsWithL (l ++ t) p = startsWithL l p := by
  induction p with
  | nil => intro l t _; rw [startsWithL_nil, startsWithL_nil]
  | cons b bs ih =>
    intro l t h
    cases l with
    | nil => exact absurd h (by simp)
    | cons a as =>
      simp only [List.cons_append, startsWithL, List.append_eq]
      rw [ih as t (by simpa using h)]

theorem closureGuard_of_hit {s : String} (h : closureKeywordHit s = true) :
    closureGuard s = true := by
  have hne : (s != "") = true := by
    rcases eq_or_ne s "" with rfl | hne
    · exact absurd h (by decide)
    · exact bne_iff_ne.mpr hne
  simp only [closureKeywordHit, Bool.or_eq_true] at h
  simp only [closureGuard, hne, Bool.true_and, Bool.or_eq_true]
  tauto

theorem extractGuestInfo_blocked {ev : CalendarEvent}
    (h : closureGuard ev.summary = true) :
    (extractGuestInfo ev).name = "Blocked Period - Please Update" ∧
    (extractGuestInfo ev).guests = 1 ∧
    (extractGuestInfo ev).isPlaceholder = true := by
  simp [extractGuestInfo, h]

theorem ceilDiv_bounds (a : Int) {b : Int} (hb : 0 < b) :
    a ≤ ceilDiv a b * b ∧ (ceilDiv a b - 1) * b < a := by
  unfold ceilDiv
  rw [Int.fdiv_eq_ediv _ (le_of_lt hb)]
  constructor
  · have h1 := Int.ediv_mul_le (-a) (ne_of_gt hb)
    rw [neg_mul]
    linarith
  · have h2 := Int.lt_ediv_add_one_mul_self (-a) hb
    have : (-(-a / b) - 1) * b = -((-a / b + 1) * b) := by ring
    rw [this]
    linarith

theorem jsTruthy_true_iff {o : Option String} :
    jsTruthy o = true ↔ ∃ u, o = some u ∧ u ≠ "" := by
  cases o with
  | none => simp [jsTruthy]
  | some u => simp [jsTruthy, bne_iff_ne]

theorem jsOrElse_default_ne {o : Option String} :
    jsOrElse o "Booking" ≠ "" := by
  cases o with
  | none => simp [jsOrElse]
  | some s =>
    simp only [jsOrElse]
    split
    · decide
    · rename_i hs
      intro hc
      exact hs (by rw [hc]; decide)

theorem parseEntry_shape {a : ICalEntry} {ev : CalendarEvent}
    (ha : parseEntry a = some ev) :
    ∃ s en, a.start = some s ∧ a.end_ = some en ∧ jsTruthy a.uid = true ∧
      ev = { uid := a.uid.getD "", summary := jsOrElse a.summary "Booking",
             description := jsOrElse a.description "", start := s, end_ := en,
             location := jsOrElse a.location "",
             organizer := flattenOrganizer a.organizer } := by
  unfold parseEntry at ha
  by_cases ht : (a.type == "VEVENT") = true
  · rw [if_pos ht] at ha
    by_cases hu : jsTruthy a.uid = true
    · rw [if_pos hu] at ha
      cases hs : a.start with
      | none => rw [hs] at ha; exact absurd ha (by simp)
      | some s =>
        cases he : a.end_ with
        | none => rw [hs, he] at ha; exact absurd ha (by simp)
        | some en =>
          rw [hs, he] at ha
          injection ha with h
          exact ⟨s, en, rfl, rfl, hu, h.symm⟩
    · rw [if_neg hu] at ha; exact absurd ha (by simp)
  · rw [if_neg ht] at ha; exact absurd ha (by simp)

theorem parseEntry_fields {a : ICalEntry} {ev : CalendarEvent}
    (ha : parseEntry a = some ev) :
    ev.uid ≠ "" ∧ ev.summary ≠ "" := by
  obtain ⟨s, en, -, -, hu, rfl⟩ := parseEntry_shape ha
  obtain ⟨u, hu1, hu2⟩ := jsTruthy_true_iff.mp hu
  exact ⟨by simpa [hu1] using hu2, jsOrElse_default_ne⟩

theorem parseEntry_bad {bad : ICalEntry} (hbad : jsTruthy bad.uid = false) :
    parseEntry bad = none := by
  unfold parseEntry
  split
  · rw [hbad]
    simp
  · rfl

theorem placeholderNotes_marker (t : String) :
    strStartsWith
      ("[PLACEHOLDER] Calendar blocked date - imported from calendar sync on " ++ t)
      "[PLACEHOLDER]" = true := by
  unfold strStartsWith
  rw [show ("[PLACEHOLDER] Calendar blocked date - imported from calendar sync on " ++ t).data
      = ("[PLACEHOLDER] Calendar blocked date - imported from calendar sync on ").data
        ++ t.data from rfl]
  rw [startsWithL_append_left _ _ _ (by decide)]
  decide

theorem importedNotes_marker (t : String) :
    strStartsWith ("Imported from calendar sync on " ++ t) "[PLACEHOLDER]" = false := by
  unfold strStartsWith
  rw [show ("Imported from calendar sync on " ++ t).data
      = ("Imported from calendar sync on ").data ++ t.data from rfl]
  rw [startsWithL_append_left _ _ _ (by decide)]
  decide

/-! ### Claim theorems -/

/-- C2: a summary containing a closure keyword ("closed", "blocked",
"unavailable", "not available"), case-insensitively, exactly or as a
substring, makes `extractGuestInfo` return the fixed blocked-period name
(which contains "Blocked"), guest count 1, and `isPlaceholder = true`,
taking precedence over all other name logic; a summary that lowercases
to "closed" hits the keyword test, and "John Doe - 2 guests" yields the
non-placeholder name "John Doe" with guest count 2. -/
theorem c2_closure_keywords_blocked (ev : CalendarEvent)
    (h : closureKeywordHit ev.summary = true) :
    (extractGuestInfo ev).name = "Blocked Period - Please Update" ∧
    (extractGuestInfo ev).guests = 1 ∧
    (extractGuestInfo ev).isPlaceholder = true ∧
    containsSub (extractGuestInfo ev).name "Blocked" = true ∧
    (∀ s : String, toLowerStr s = "closed" → closureKeywordHit s = true) ∧
    extractGuestInfo johnDoeEvent = ⟨"John Doe", none, none, 2, false⟩ := by
  have hg := closureGuard_of_hit h
  obtain ⟨h1, h2, h3⟩ := extractGuestInfo_blocked hg
  refine ⟨h1, h2, h3, ?_, ?_, by decide⟩
  · rw [h1]; decide
  · intro s hs
    simp only [closureKeywordHit, hs]
    decide

theorem c2_witness :
    closureKeywordHit c2Event.summary = true ∧
    (extractGuestInfo c2Event).name = "Blocked Period - Please Update" ∧
    (extractGuestInfo c2Event).isPlaceholder = true :=
  ⟨by decide, (c2_closure_keywords_blocked c2Event (by decide)).1,
    (c2_closure_keywords_blocked c2Event (by decide)).2.2.1⟩

/-- C3 counterexample: the summary "Blocked - 3 guests" matches the
closure blocklist and contains the "<N> guest(s)" pattern with N = 3,
yet `extractGuestInfo` returns guest count 1, not max(1, 3) = 3: the
guest-count scan is NOT applied to blocklist-matching summaries. -/
theorem c3_counterexample :
    (extractGuestInfo c3Event).guests = 1 ∧
    guestScan c3Event.summary.data = some 3 ∧
    closureKeywordHit c3Event.summary = true := by decide

/-- C3 (amended): the guest-count scan applies only when the summary is
present and does not match the closure blocklist; there an "<N> guest(s)"
pattern overrides the default with max(1, N) — so "0 guests" still yields
1 — while blocklist-matching summaries always get guest count 1
regardless of any guest pattern. -/
theorem c3_guest_count_scope (ev : CalendarEvent)
    (hnb : closureGuard ev.summary = false) (hne : ev.summary ≠ "") :
    (∀ n, guestScan ev.summary.data = some n →
      (extractGuestInfo ev).guests = max 1 n) ∧
    (guestScan ev.summary.data = none → (extractGuestInfo ev).guests = 1) ∧
    (extractGuestInfo zeroGuestsEvent).guests = 1 ∧
    (∀ e2 : CalendarEvent, closureGuard e2.summary = true →
      (extractGuestInfo e2).guests = 1) := by
  have hne' : (ev.summary != "") = true := bne_iff_ne.mpr hne
  refine ⟨?_, ?_, by decide, ?_⟩
  · intro n hn
    simp [extractGuestInfo, hnb, hne', guestsFromSummary, hn]
  · intro hn
    simp [extractGuestInfo, hnb, hne', guestsFromSummary, hn]
  · intro e2 h2
    simp [extractGuestInfo, h2]

theorem c3_witness :
    closureGuard johnDoeEvent.summary = false ∧ johnDoeEvent.summary ≠ "" ∧
    (extractGuestInfo johnDoeEvent).guests = max 1 2 :=
  ⟨by decide, by decide,
    (c3_guest_count_scope johnDoeEvent (by decide) (by decide)).1 2 (by decide)⟩

/-- C4: reconciliation computes `nights = ceil((end - start) / 1 day)`
(characterized exactly by the two inequalities below), and whenever
`nights ≤ 0` — which holds in particular whenever `end ≤ start` — it
appends an invalid-date-range error naming the event to the result's
error list and leaves the store and the created/updated counters
untouched. -/
theorem c4_invalid_range_skips (pid : String) (e : CalendarEvent) (now : Int)
    (db : DB) (r : SyncResult) (h : computeNights e ≤ 0) :
    processCalendarEvent pid e now db r =
      (db, { r with
        errors := r.errors ++ ["Invalid date range for event " ++ e.uid] }) ∧
    (processCalendarEvent pid e now db r).2.bookingsCreated = r.bookingsCreated ∧
    (processCalendarEvent pid e now db r).2.bookingsUpdated = r.bookingsUpdated ∧
    e.end_ - e.start ≤ computeNights e * (1000 * 60 * 60 * 24) ∧
    (computeNights e - 1) * (1000 * 60 * 60 * 24) < e.end_ - e.start ∧
    (∀ e2 : CalendarEvent, e2.end_ ≤ e2.start → computeNights e2 ≤ 0) := by
  have hb : (0 : Int) < 1000 * 60 * 60 * 24 := by norm_num
  obtain ⟨hc1, hc2⟩ := ceilDiv_bounds (e.end_ - e.start) hb
  have heq : processCalendarEvent pid e now db r =
      (db, { r with
        errors := r.errors ++ ["Invalid date range for event " ++ e.uid] }) := by
    simp only [processCalendarEvent]
    rw [if_pos h]
  refine ⟨heq, by rw [heq], by rw [heq], hc1, hc2, ?_⟩
  intro e2 hle
  obtain ⟨b1, b2⟩ := ceilDiv_bounds (e2.end_ - e2.start) hb
  have hd : e2.end_ - e2.start ≤ 0 := by linarith
  show ceilDiv (e2.end_ - e2.start) (1000 * 60 * 60 * 24) ≤ 0
  by_contra hpos
  push_neg at hpos
  have h1 : (0 : Int) ≤ ceilDiv (e2.end_ - e2.start) (1000 * 60 * 60 * 24) - 1 := by
    linarith
  have h2 := mul_nonneg h1 (le_of_lt hb)
  linarith

theorem c4_witness :
    computeNights c4Event ≤ 0 ∧
    processCalendarEvent "p4" c4Event 0 ⟨[], 1⟩ emptyResult =
      (⟨[], 1⟩, { emptyResult with
        errors := emptyResult.errors ++ ["Invalid date range for event " ++ c4Event.uid] }) :=
  ⟨by decide, (c4_invalid_range_skips "p4" c4Event 0 ⟨[], 1⟩ emptyResult (by decide)).1⟩

/-- C6: for an event with a valid date range and no existing booking for
(propertyId, externalId = event uid), reconciliation appends exactly one
new Booking with booking status "pending", payment status "pending", all
financial fields zero, bookingSource set to the originating platform
("booking.com"), externalId equal to the event uid, and internal notes
prefixed "[PLACEHOLDER]" exactly when the derived GuestInfo has
`isPlaceholder = true`; `bookingsCreated` is incremented by one. -/
theorem c6_create_booking (pid : String) (e : CalendarEvent) (now : Int)
    (db : DB) (r : SyncResult)
    (hnone : lookupBooking db pid e.uid = none) (hvalid : ¬computeNights e ≤ 0) :
    ∃ nb : Booking,
      (processCalendarEvent pid e now db r).1.bookings = db.bookings ++ [nb] ∧
      (processCalendarEvent pid e now db r).2 =
        { r with bookingsCreated := r.bookingsCreated + 1 } ∧
      nb.bookingStatus = "pending" ∧ nb.paymentStatus = "pending" ∧
      nb.baseAmount = 0 ∧ nb.cleaningFee = 0 ∧ nb.taxes = 0 ∧
      nb.totalAmount = 0 ∧ nb.securityDeposit = 0 ∧
      nb.bookingSource = "booking.com" ∧ nb.externalId = some e.uid ∧
      nb.propertyId = pid ∧
      strStartsWith (nb.internalNotes.getD "") "[PLACEHOLDER]" =
        (extractGuestInfo e).isPlaceholder := by
  refine ⟨newBookingFromEvent pid (extractGuestInfo e) e now (computeNights e) db.nextId,
    ?_, ?_, rfl, rfl, rfl, rfl, rfl, rfl, rfl, rfl, rfl, rfl, ?_⟩
  · simp only [processCalendarEvent, hnone, if_neg hvalid]
  · simp only [processCalendarEvent, hnone, if_neg hvalid]
  · cases hip : (extractGuestInfo e).isPlaceholder with
    | true =>
      simp only [newBookingFromEvent, hip, if_true, Option.getD_some]
      exact placeholderNotes_marker (isoOfTime now)
    | false =>
      simp only [newBookingFromEvent, hip, if_false, Option.getD_some]
      exact importedNotes_marker (isoOfTime now)

theorem c6_witness :
    lookupBooking ⟨[], 1⟩ "p6" c6Event.uid = none ∧ ¬computeNights c6Event ≤ 0 ∧
    ∃ nb : Booking,
      (processCalendarEvent "p6" c6Event 9 ⟨[], 1⟩ emptyResult).1.bookings =
        (⟨[], 1⟩ : DB).bookings ++ [nb] ∧
      (processCalendarEvent "p6" c6Event 9 ⟨[], 1⟩ emptyResult).2 =
        { emptyResult with bookingsCreated := emptyResult.bookingsCreated + 1 } ∧
      nb.bookingStatus = "pending" ∧ nb.paymentStatus = "pending" ∧
      nb.baseAmount = 0 ∧ nb.cleaningFee = 0 ∧ nb.taxes = 0 ∧
      nb.totalAmount = 0 ∧ nb.securityDeposit = 0 ∧
      nb.bookingSource = "booking.com" ∧ nb.externalId = some c6Event.uid ∧
      nb.propertyId = "p6" ∧
      strStartsWith (nb.internalNotes.getD "") "[PLACEHOLDER]" =
        (extractGuestInfo c6Event).isPlaceholder :=
  ⟨by decide, by decide,
    c6_create_booking "p6" c6Event 9 ⟨[], 1⟩ emptyResult (by decide) (by decide)⟩

/-- C7: the parser keeps only VEVENT entries and silently drops any entry
whose uid is missing or empty (so every returned event has a non-empty
externalId), and dropping such a malformed entry from a batch leaves the
parse of the remaining entries exactly unchanged. -/
theorem c7_parser_skips_malformed (entries es1 es2 : List ICalEntry)
    (bad : ICalEntry) (hbad : jsTruthy bad.uid = false) :
    (∀ ev ∈ parseICalData entries, ev.uid ≠ "") ∧
    parseICalData (es1 ++ bad :: es2) = parseICalData (es1 ++ es2) := by
  constructor
  · intro ev hm
    rw [parseICalData, List.mem_filterMap] at hm
    obtain ⟨a, -, ha⟩ := hm
    exact (parseEntry_fields ha).1
  · simp [parseICalData, List.filterMap_append, List.filterMap_cons,
      parseEntry_bad hbad]

theorem c7_witness :
    jsTruthy c7BadEntry.uid = false ∧
    parseICalData ([c7GoodEntry] ++ c7BadEntry :: []) =
      parseICalData ([c7GoodEntry] ++ []) :=
  ⟨by decide,
    (c7_parser_skips_malformed [] [c7GoodEntry] [] c7BadEntry (by decide)).2⟩

/-- C8: the stored-settings sync entry point, for a property whose
settings have `sync_enabled = false` or no truthy `ical_url`, returns a
SyncResult with `success = false` and an explanatory error, performs no
fetch (fetch count 0), and leaves the persistent state untouched. -/
theorem c8_settings_gating (st : SyncState) (fetch : FetchOutcome) (now : Int)
    (pid : String) (p : PropertyRow)
    (hp : (st.props.filter fun q => q.id == pid).head? = some p)
    (hgate : p.sync_enabled = false ∨ p.ical_url = none ∨ p.ical_url = some "") :
    syncPropertyCalendar st fetch now pid =
      (st, { emptyResult with
        errors := ["Calendar sync is not enabled for this property"] }, 0) ∧
    (syncPropertyCalendar st fetch now pid).2.1.success = false ∧
    (syncPropertyCalendar st fetch now pid).2.1.errors ≠ [] ∧
    (syncPropertyCalendar st fetch now pid).2.2 = 0 ∧
    (syncPropertyCalendar st fetch now pid).1 = st := by
  have hguard : (!p.sync_enabled || !(jsTruthy p.ical_url)) = true := by
    rcases hgate with h | h | h <;> simp [h, jsTruthy]
  have heq : syncPropertyCalendar st fetch now pid =
      (st, { emptyResult with
        errors := ["Calendar sync is not enabled for this property"] }, 0) := by
    unfold syncPropertyCalendar
    rw [hp]
    simp [hguard]
  refine ⟨heq, ?_, ?_, ?_, ?_⟩ <;> rw [heq]
  all_goals simp [emptyResult]

theorem c8_witness :
    (c8State.props.filter fun q => q.id == "p8").head? = some c8Prop ∧
    c8Prop.sync_enabled = false ∧
    syncPropertyCalendar c8State (.response 200 (.ok [])) 5 "p8" =
      (c8State, { emptyResult with
        errors := ["Calendar sync is not enabled for this property"] }, 0) :=
  ⟨by decide, by decide,
    (c8_settings_gating c8State (.response 200 (.ok [])) 5 "p8" c8Prop
      (by decide) (Or.inl (by decide))).1⟩

/-- C9 counterexample: a fetch that returns HTTP 200 with a body that is
not calendar data at all (the node-ical tokenizer yields no entries from
it, as it ignores unrecognized lines) makes `downloadICalData` return an
event list (`.ok []`) — no typed FetchError, and no calendar-start-marker
check, is involved. -/
theorem c9_counterexample :
    downloadICalData (.response 200 (.ok [])) = .ok [] := rfl

/-- C9 (amended): `downloadICalData` surfaces every failure as a single
undifferentiated string error prefixed "Failed to download iCal data: "
— wrapping the network/timeout message, a non-200 status, or a tokenizer
failure — with the distinguishing detail only embedded in the message
text; a 200 response whose body tokenizes (even to nothing, as for
non-calendar content) is returned as events, with no marker validation. -/
theorem c9_fetch_error_shape (msg pmsg : String) (status : Nat)
    (entries : List ICalEntry) (tok : Except String (List ICalEntry))
    (hs : status ≠ 200) :
    downloadICalData (.netError msg) =
      .error ("Failed to download iCal data: " ++ msg) ∧
    downloadICalData (.response status tok) =
      .error ("Failed to download iCal data: Failed to download calendar: HTTP "
        ++ toString status) ∧
    downloadICalData (.response 200 (.error pmsg)) =
      .error ("Failed to download iCal data: Failed to parse iCal data: " ++ pmsg) ∧
    downloadICalData (.response 200 (.ok entries)) = .ok (parseICalData entries) := by
  have hbne : (status != 200) = true := bne_iff_ne.mpr hs
  refine ⟨rfl, ?_, rfl, rfl⟩
  simp [downloadICalData, hbne]

theorem c9_witness :
    (404 : Nat) ≠ 200 ∧
    downloadICalData (.response 404 (.ok [c1Entry])) =
      .error ("Failed to download iCal data: Failed to download calendar: HTTP "
        ++ toString (404 : Nat)) :=
  ⟨by decide,
    (c9_fetch_error_shape "m" "p" 404 [] (.ok [c1Entry]) (by decide)).2.1⟩

/-- C10: a VEVENT with uid, start and end but an absent (or empty, hence
falsy) summary is parsed with the substituted summary "Booking"; the
extractor on any event whose summary is "Booking" returns name "Booking"
with `isPlaceholder = false`; and every event the parser produces has a
non-empty summary, so the extractor's absent-summary branch (the generic
"Calendar Reservation" label) is unreachable on parser output. -/
theorem c10_default_summary (entry : ICalEntry) (ev : CalendarEvent)
    (entries : List ICalEntry)
    (hp : parseEntry entry = some ev)
    (hs : entry.summary = none ∨ entry.summary = some "") :
    ev.summary = "Booking" ∧
    (∀ e2 : CalendarEvent, e2.summary = "Booking" →
      (extractGuestInfo e2).name = "Booking" ∧
      (extractGuestInfo e2).isPlaceholder = false) ∧
    (∀ ev2 ∈ parseICalData entries, ev2.summary ≠ "") := by
  refine ⟨?_, ?_, ?_⟩
  · obtain ⟨s, en, -, -, -, rfl⟩ := parseEntry_shape hp
    rcases hs with h | h <;> simp [h, jsOrElse]
  · intro e2 h2
    have hng : closureGuard e2.summary = false := by rw [h2]; decide
    have hs2 : (e2.summary != "") = true := by rw [h2]; decide
    have hnm : nameFromSummary e2.summary = ("Booking", false) := by rw [h2]; decide
    simp [extractGuestInfo, hng, hs2, hnm]
  · intro ev2 hm
    rw [parseICalData, List.mem_filterMap] at hm
    obtain ⟨a, -, ha⟩ := hm
    exact (parseEntry_fields ha).2

theorem c10_witness :
    parseEntry c10Entry = some ⟨"n1", "Booking", "", 0, 86400000, "", ""⟩ ∧
    c10Entry.summary = none ∧
    (extractGuestInfo ⟨"n1", "Booking", "", 0, 86400000, "", ""⟩).name = "Booking" ∧
    (extractGuestInfo ⟨"n1", "Booking", "", 0, 86400000, "", ""⟩).isPlaceholder = false :=
  ⟨by decide, by decide,
    ((c10_default_summary c10Entry ⟨"n1", "Booking", "", 0, 86400000, "", ""⟩ []
      (by decide) (Or.inl rfl)).2.1 _ rfl).1,
    ((c10_default_summary c10Entry ⟨"n1", "Booking", "", 0, 86400000, "", ""⟩ []
      (by decide) (Or.inl rfl)).2.1 _ rfl).2⟩

/-- C5 counterexample: on the update path the `updated_at` column is
also mutated (set to the sync instant), so "every other field of that
Booking is left unchanged" fails: here the matched booking's
`updatedAt` goes from 0 to 77, though `updatedAt` is not among the
fields the claim lists as touched. -/
theorem c5_counterexample :
    (processCalendarEvent "p5" c5Event 77 c5DB emptyResult).1.bookings.map
      (fun b => b.updatedAt) = [77] ∧
    c5DB.bookings.map (fun b => b.updatedAt) = [0] ∧
    (77 : Int) ≠ 0 := by decide

/-- C5 (amended): for an event whose booking already exists for
(propertyId, externalId = event uid) and whose date range is valid,
reconciliation updates only the guest name/email/phone, guest count,
check-in/check-out dates, nightsCount, the notes fields (the event's
free-text description into special requests, and a fresh
"Updated from calendar sync on <timestamp>" marker into internal notes)
and the row's `updated_at` timestamp, increments `bookingsUpdated` by
one, and leaves every other field of every booking — in particular all
financial fields and the booking/payment status fields — unchanged. -/
theorem c5_update_touches_listed_fields (pid : String) (e : CalendarEvent)
    (now : Int) (db : DB) (r : SyncResult) (eb : Booking)
    (hfound : lookupBooking db pid e.uid = some eb)
    (hvalid : ¬computeNights e ≤ 0) :
    (processCalendarEvent pid e now db r).2 =
      { r with bookingsUpdated := r.bookingsUpdated + 1 } ∧
    (processCalendarEvent pid e now db r).1.nextId = db.nextId ∧
    (processCalendarEvent pid e now db r).1.bookings.length = db.bookings.length ∧
    ∀ (i : Nat) (old : Booking), db.bookings[i]? = some old →
      ∃ new : Booking,
        (processCalendarEvent pid e now db r).1.bookings[i]? = some new ∧
        (old.id ≠ eb.id → new = old) ∧
        (old.id = eb.id →
          new.guestName = (extractGuestInfo e).name ∧
          new.guestEmail = (extractGuestInfo e).email ∧
          new.guestPhone = (extractGuestInfo e).phone ∧
          new.numberOfGuests = (extractGuestInfo e).guests ∧
          new.checkInDate = e.start ∧ new.checkOutDate = e.end_ ∧
          new.nightsCount = computeNights e ∧
          new.specialRequests =
            (if e.description == "" then none else some e.description) ∧
          new.internalNotes =
            some ("Updated from calendar sync on " ++ isoOfTime now) ∧
          new.updatedAt = now ∧
          new.id = old.id ∧ new.propertyId = old.propertyId ∧
          new.externalId = old.externalId ∧ new.baseAmount = old.baseAmount ∧
          new.cleaningFee = old.cleaningFee ∧ new.taxes = old.taxes ∧
          new.totalAmount = old.totalAmount ∧
          new.securityDeposit = old.securityDeposit ∧
          new.bookingStatus = old.bookingStatus ∧
          new.paymentStatus = old.paymentStatus ∧
          new.bookingSource = old.bookingSource) := by
  have hred : processCalendarEvent pid e now db r =
      ({ db with bookings := db.bookings.map (fun b =>
          if b.id == eb.id then
            updateFromEvent (extractGuestInfo e) e now (computeNights e) b
          else b) },
        { r with bookingsUpdated := r.bookingsUpdated + 1 }) := by
    simp only [processCalendarEvent, hfound, if_neg hvalid]
  refine ⟨by rw [hred], by rw [hred], by rw [hred]; simp, ?_⟩
  intro i old hold
  refine ⟨if old.id == eb.id then
      updateFromEvent (extractGuestInfo e) e now (computeNights e) old
    else old, ?_, ?_, ?_⟩
  · rw [hred]
    simp [List.getElem?_map, hold]
  · intro hne
    rw [if_neg (by simpa using hne)]
  · intro heqid
    rw [if_pos (beq_iff_eq.mpr heqid)]
    simp [updateFromEvent]

theorem c5_witness :
    lookupBooking c5DB "p5" c5Event.uid = some c5Booking ∧
    ¬computeNights c5Event ≤ 0 ∧
    (processCalendarEvent "p5" c5Event 77 c5DB emptyResult).2 =
      { emptyResult with bookingsUpdated := emptyResult.bookingsUpdated + 1 } :=
  ⟨by decide, by decide,
    (c5_update_touches_listed_fields "p5" c5Event 77 c5DB emptyResult c5Booking
      (by decide) (by decide)).1⟩

theorem lookupBooking_isSome_of_keyExists {db : DB} {pid u : String}
    (h : keyExists db pid u) : ∃ eb, lookupBooking db pid u = some eb := by
  obtain ⟨b, hb, h1, h2⟩ := h
  unfold lookupBooking
  cases hh : (db.bookings.filter fun b =>
      b.propertyId == pid && b.externalId == some u).head? with
  | some eb => exact ⟨eb, rfl⟩
  | none =>
    rw [List.head?_eq_none_iff, List.filter_eq_nil_iff] at hh
    exact absurd (by simp [h1, h2]) (hh b hb)

theorem keyExists_process {db : DB} {pid u : String} (pid' : String)
    (e : CalendarEvent) (now : Int) (r : SyncResult)
    (h : keyExists db pid u) :
    keyExists (processCalendarEvent pid' e now db r).1 pid u := by
  obtain ⟨b, hb, h1, h2⟩ := h
  simp only [processCalendarEvent]
  split
  · exact ⟨b, hb, h1, h2⟩
  · split
    · rename_i eb heb
      refine ⟨if b.id == eb.id then
          updateFromEvent (extractGuestInfo e) e now (computeNights e) b
        else b, List.mem_map_of_mem _ hb, ?_, ?_⟩
      · split <;> simp [updateFromEvent, h1]
      · split <;> simp [updateFromEvent, h2]
    · exact ⟨b, List.mem_append_left _ hb, h1, h2⟩

theorem keyExists_process_self {db : DB} (pid : String) (e : CalendarEvent)
    (now : Int) (r : SyncResult) (hv : ¬computeNights e ≤ 0) :
    keyExists (processCalendarEvent pid e now db r).1 pid e.uid := by
  simp only [processCalendarEvent]
  rw [if_neg hv]
  cases hl : lookupBooking db pid e.uid with
  | some eb =>
    have hfil : eb ∈ db.bookings.filter fun b =>
        b.propertyId == pid && b.externalId == some e.uid := by
      unfold lookupBooking at hl
      obtain ⟨ys, hys⟩ := List.head?_eq_some_iff.mp hl
      rw [hys]
      exact List.mem_cons_self _ _
    rw [List.mem_filter] at hfil
    obtain ⟨hmem, hpred⟩ := hfil
    rw [Bool.and_eq_true, beq_iff_eq, beq_iff_eq] at hpred
    refine ⟨if eb.id == eb.id then
        updateFromEvent (extractGuestInfo e) e now (computeNights e) eb
      else eb, List.mem_map_of_mem _ hmem, ?_, ?_⟩
    · split <;> simp [updateFromEvent, hpred.1]
    · split <;> simp [updateFromEvent, hpred.2]
  | none =>
    exact ⟨newBookingFromEvent pid (extractGuestInfo e) e now (computeNights e) db.nextId,
      List.mem_append_right _ (List.mem_cons_self _ _), rfl, rfl⟩

theorem dedupInv_process {db : DB} (pid : String) (e : CalendarEvent)
    (now : Int) (r : SyncResult) (h : dedupInv db) :
    dedupInv (processCalendarEvent pid e now db r).1 := by
  intro pid' u
  simp only [processCalendarEvent]
  split
  · exact h pid' u
  · split
    · rename_i eb heb
      rw [List.filter_map, List.length_map]
      rw [List.filter_congr (q := fun b =>
        b.propertyId == pid' && b.externalId == some u) ?_]
      · exact h pid' u
      · intro b _
        by_cases hid : (b.id == eb.id) = true <;>
          simp [Function.comp, hid, updateFromEvent]
    · rename_i hnone
      rw [List.filter_append, List.length_append]
      by_cases hmatch : ((newBookingFromEvent pid (extractGuestInfo e) e now
          (computeNights e) db.nextId).propertyId == pid' &&
          (newBookingFromEvent pid (extractGuestInfo e) e now
            (computeNights e) db.nextId).externalId == some u) = true
      · rw [Bool.and_eq_true, beq_iff_eq, beq_iff_eq] at hmatch
        have hpid2 : pid = pid' := hmatch.1
        have huid2 : e.uid = u := Option.some.inj (hmatch.2 : some e.uid = some u)
        have hnil : db.bookings.filter (fun b =>
            b.propertyId == pid && b.externalId == some e.uid) = [] := by
          unfold lookupBooking at hnone
          exact List.head?_eq_none_iff.mp hnone
        rw [← hpid2, ← huid2, hnil]
        simp only [List.length_nil, List.filter_cons, List.filter_nil]
        split <;> simp
      · have hone : List.filter (fun b => b.propertyId == pid' &&
            b.externalId == some u)
            [newBookingFromEvent pid (extractGuestInfo e) e now
              (computeNights e) db.nextId] = [] := by
          simp only [List.filter_cons, List.filter_nil]
          rw [if_neg hmatch]
        rw [hone]
        simpa using h pid' u

theorem keyExists_syncEvents (pid' : String) (now : Int) (pid u : String) :
    ∀ (events : List CalendarEvent) (db : DB) (r : SyncResult),
      keyExists db pid u → keyExists (syncEvents pid' now events db r).1 pid u := by
  intro events
  induction events with
  | nil => intro db r h; exact h
  | cons e rest ih =>
    intro db r h
    simp only [syncEvents]
    exact ih _ _ (keyExists_process pid' e now r h)

theorem dedupInv_syncEvents (pid' : String) (now : Int) :
    ∀ (events : List CalendarEvent) (db : DB) (r : SyncResult),
      dedupInv db → dedupInv (syncEvents pid' now events db r).1 := by
  intro events
  induction events with
  | nil => intro db r h; exact h
  | cons e rest ih =>
    intro db r h
    simp only [syncEvents]
    exact ih _ _ (dedupInv_process pid' e now r h)

theorem keys_after_syncEvents (pid : String) (now : Int) :
    ∀ (events : List CalendarEvent) (db : DB) (r : SyncResult)
      (e : CalendarEvent), e ∈ events → ¬computeNights e ≤ 0 →
      keyExists (syncEvents pid now events db r).1 pid e.uid := by
  intro events
  induction events with
  | nil => intro db r e he; cases he
  | cons e0 rest ih =>
    intro db r e he hv
    simp only [syncEvents]
    rcases List.mem_cons.mp he with rfl | hmem
    · exact keyExists_syncEvents pid now pid e.uid rest _ _
        (keyExists_process_self pid e now r hv)
    · exact ih _ _ e hmem hv

theorem syncEvents_second_pass (pid : String) (now : Int) :
    ∀ (events : List CalendarEvent) (db : DB) (r : SyncResult),
      (∀ e ∈ events, ¬computeNights e ≤ 0 → keyExists db pid e.uid) →
      (syncEvents pid now events db r).2.bookingsCreated = r.bookingsCreated ∧
      (syncEvents pid now events db r).2.bookingsUpdated =
        r.bookingsUpdated + (events.filter validEvent).length := by
  intro events
  induction events with
  | nil => intro db r _; exact ⟨rfl, by simp [syncEvents]⟩
  | cons e0 rest ih =>
    intro db r h
    simp only [syncEvents]
    by_cases hv : computeNights e0 ≤ 0
    · have hred : processCalendarEvent pid e0 now db r =
          (db, { r with
            errors := r.errors ++ ["Invalid date range for event " ++ e0.uid] }) := by
        simp only [processCalendarEvent]
        rw [if_pos hv]
      have hval : validEvent e0 = false := by
        simp only [validEvent, decide_eq_false_iff_not]
        omega
      rw [hred]
      obtain ⟨ih1, ih2⟩ := ih db _ (fun e he hve => h e (List.mem_cons_of_mem _ he) hve)
      refine ⟨by rw [ih1], ?_⟩
      rw [ih2]
      simp [List.filter_cons, hval]
    · obtain ⟨eb, heb⟩ :=
        lookupBooking_isSome_of_keyExists (h e0 (List.mem_cons_self _ _) hv)
      have h2 : (processCalendarEvent pid e0 now db r).2 =
          { r with bookingsUpdated := r.bookingsUpdated + 1 } := by
        simp only [processCalendarEvent, heb]
        rw [if_neg hv]
      have hkeys : ∀ e ∈ rest, ¬computeNights e ≤ 0 →
          keyExists (processCalendarEvent pid e0 now db r).1 pid e.uid :=
        fun e he hve => keyExists_process pid e0 now r
          (h e (List.mem_cons_of_mem _ he) hve)
      obtain ⟨ih1, ih2⟩ := ih (processCalendarEvent pid e0 now db r).1
        (processCalendarEvent pid e0 now db r).2 hkeys
      have hval : validEvent e0 = true := by
        simp only [validEvent, decide_eq_true_eq]
        omega
      refine ⟨by rw [ih1, h2], ?_⟩
      rw [ih2, h2]
      simp only [List.filter_cons, hval, if_true, List.length_cons]
      omega

theorem setLastSync_filter_head (props : List PropertyRow) (pid pid0 : String)
    (now : Int) :
    ((setLastSync props pid0 now).filter fun q => q.id == pid).head? =
      ((props.filter fun q => q.id == pid).head?).map
        (fun p => if p.id == pid0 then { p with last_sync_at := some now } else p) := by
  unfold setLastSync
  rw [List.filter_map, List.head?_map]
  congr 2
  apply List.filter_congr
  intro q _
  by_cases hid : (q.id == pid0) = true <;> simp [Function.comp, hid]

/-- C1: with at-most-one booking per (propertyId, externalId) pair
initially, running the property sync twice in succession over the same
calendar text (the same tokenized entries) yields `bookingsCreated = 0`
on the second pass — every event with a valid range is routed to the
update path, so `bookingsUpdated` equals the number of valid events —
and the at-most-one-booking-per-pair invariant holds after each pass. -/
theorem c1_second_sync_idempotent_dedup (st : SyncState)
    (entries : List ICalEntry) (now1 now2 : Int) (pid url : String)
    (p : PropertyRow)
    (hp : (st.props.filter fun q => q.id == pid).head? = some p)
    (hinv : dedupInv st.db) :
    (syncPropertyCalendarWithUrl
        (syncPropertyCalendarWithUrl st
          (FetchOutcome.response 200 (Except.ok entries)) now1 pid url).1
        (FetchOutcome.response 200 (Except.ok entries)) now2 pid url).2.1.bookingsCreated
      = 0 ∧
    (syncPropertyCalendarWithUrl
        (syncPropertyCalendarWithUrl st
          (FetchOutcome.response 200 (Except.ok entries)) now1 pid url).1
        (FetchOutcome.response 200 (Except.ok entries)) now2 pid url).2.1.bookingsUpdated
      = ((parseICalData entries).filter validEvent).length ∧
    dedupInv (syncPropertyCalendarWithUrl st
        (FetchOutcome.response 200 (Except.ok entries)) now1 pid url).1.db ∧
    dedupInv (syncPropertyCalendarWithUrl
        (syncPropertyCalendarWithUrl st
          (FetchOutcome.response 200 (Except.ok entries)) now1 pid url).1
        (FetchOutcome.response 200 (Except.ok entries)) now2 pid url).1.db := by
  have hdl : downloadICalData (FetchOutcome.response 200 (Except.ok entries)) =
      Except.ok (parseICalData entries) := rfl
  have hp2 : (((setLastSync st.props pid now1).filter fun q => q.id == pid).head?) =
      some (if p.id == pid
        then { p with last_sync_at := some now1 } else p) := by
    rw [setLastSync_filter_head, hp]
    rfl
  have h1 : (syncPropertyCalendarWithUrl st
      (FetchOutcome.response 200 (Except.ok entries)) now1 pid url).1 =
      ⟨setLastSync st.props pid now1,
       (syncEvents pid now1 (parseICalData entries) st.db emptyResult).1⟩ := by
    simp only [syncPropertyCalendarWithUrl, hp, hdl]
  have hkeys : ∀ e ∈ parseICalData entries, ¬computeNights e ≤ 0 →
      keyExists (syncEvents pid now1 (parseICalData entries) st.db emptyResult).1
        pid e.uid :=
    fun e he hv =>
      keys_after_syncEvents pid now1 (parseICalData entries) st.db emptyResult e he hv
  obtain ⟨hc, hu⟩ := syncEvents_second_pass pid now2 (parseICalData entries)
    (syncEvents pid now1 (parseICalData entries) st.db emptyResult).1 emptyResult hkeys
  have h2c : (syncPropertyCalendarWithUrl
      (syncPropertyCalendarWithUrl st
        (FetchOutcome.response 200 (Except.ok entries)) now1 pid url).1
      (FetchOutcome.response 200 (Except.ok entries)) now2 pid url).2.1 =
      { (syncEvents pid now2 (parseICalData entries)
          (syncEvents pid now1 (parseICalData entries) st.db emptyResult).1
          emptyResult).2 with
        success := (syncEvents pid now2 (parseICalData entries)
          (syncEvents pid now1 (parseICalData entries) st.db emptyResult).1
          emptyResult).2.errors.isEmpty,
        message := if (syncEvents pid now2 (parseICalData entries)
            (syncEvents pid now1 (parseICalData entries) st.db emptyResult).1
            emptyResult).2.errors.isEmpty then
          "Sync completed successfully. Created: " ++
            toString (syncEvents pid now2 (parseICalData entries)
              (syncEvents pid now1 (parseICalData entries) st.db emptyResult).1
              emptyResult).2.bookingsCreated
            ++ ", Updated: " ++ toString (syncEvents pid now2 (parseICalData entries)
              (syncEvents pid now1 (parseICalData entries) st.db emptyResult).1
              emptyResult).2.bookingsUpdated
            ++ ", Skipped: " ++ toString (syncEvents pid now2 (parseICalData entries)
              (syncEvents pid now1 (parseICalData entries) st.db emptyResult).1
              emptyResult).2.bookingsSkipped
        else
          "Sync completed with " ++ toString (syncEvents pid now2 (parseICalData entries)
            (syncEvents pid now1 (parseICalData entries) st.db emptyResult).1
            emptyResult).2.errors.length ++ " errors" } := by
    rw [h1]
    simp only [syncPropertyCalendarWithUrl, hp2, hdl]
  have h2s : (syncPropertyCalendarWithUrl
      (syncPropertyCalendarWithUrl st
        (FetchOutcome.response 200 (Except.ok entries)) now1 pid url).1
      (FetchOutcome.response 200 (Except.ok entries)) now2 pid url).1.db =
      (syncEvents pid now2 (parseICalData entries)
        (syncEvents pid now1 (parseICalData entries) st.db emptyResult).1
        emptyResult).1 := by
    rw [h1]
    simp only [syncPropertyCalendarWithUrl, hp2, hdl]
  refine ⟨?_, ?_, ?_, ?_⟩
  · rw [h2c]
    exact hc
  · rw [h2c]
    simpa [emptyResult] using hu
  · rw [h1]
    exact dedupInv_syncEvents pid now1 (parseICalData entries) st.db emptyResult hinv
  · rw [h2s]
    exact dedupInv_syncEvents pid now2 (parseICalData entries) _ emptyResult
      (dedupInv_syncEvents pid now1 (parseICalData entries) st.db emptyResult hinv)

theorem c1_witness :
    (c1State.props.filter fun q => q.id == "p1").head? = some c1Prop ∧
    dedupInv c1State.db ∧
    (syncPropertyCalendarWithUrl
        (syncPropertyCalendarWithUrl c1State
          (FetchOutcome.response 200 (Except.ok [c1Entry])) 100 "p1" "http://cal").1
        (FetchOutcome.response 200 (Except.ok [c1Entry])) 200 "p1" "http://cal").2.1.bookingsCreated
      = 0 ∧
    dedupInv (syncPropertyCalendarWithUrl
        (syncPropertyCalendarWithUrl c1State
          (FetchOutcome.response 200 (Except.ok [c1Entry])) 100 "p1" "http://cal").1
        (FetchOutcome.response 200 (Except.ok [c1Entry])) 200 "p1" "http://cal").1.db :=
  ⟨by decide, fun pid u => by simp [c1State, dedupInv],
    (c1_second_sync_idempotent_dedup c1State [c1Entry] 100 200 "p1" "http://cal" c1Prop
      (by decide) (fun pid u => by simp [c1State, dedupInv])).1,
    (c1_second_sync_idempotent_dedup c1State [c1Entry] 100 200 "p1" "http://cal" c1Prop
      (by decide) (fun pid u => by simp [c1State, dedupInv])).2.2.2⟩
